import Mathlib

/-!
Verification development for the market-microstructure core of the
thesis_model simulator.  The Python modules under project/core,
project/market and project/regulation are shallowly embedded: every
Python class becomes a Lean structure, every method a pure function
(mutation becomes explicit state passing), Python float becomes Rat,
Python int becomes Int, and a method that can raise returns
Except String.  Definitions follow the source line by line; theorems
settle the specification claims.
-/

namespace ThesisModel

/-- Decidable equality for Except results, used to evaluate the
embedded fallible methods on concrete inputs. -/
instance {ε α : Type} [DecidableEq ε] [DecidableEq α] : DecidableEq (Except ε α) := fun x y =>
  match x, y with
  | Except.error a, Except.error b =>
    if h : a = b then isTrue (by rw [h])
    else isFalse (by intro hc; cases hc; exact h rfl)
  | Except.error _, Except.ok _ => isFalse (by intro hc; cases hc)
  | Except.ok _, Except.error _ => isFalse (by intro hc; cases hc)
  | Except.ok a, Except.ok b =>
    if h : a = b then isTrue (by rw [h])
    else isFalse (by intro hc; cases hc; exact h rfl)

/-! ## project/core/timeline.py -/

/-- Embeds Timeline (timeline.py lines 11-61).  Fields mirror the
Python attributes set in Timeline.__init__. -/
structure Timeline where
  total_periods : Int
  rounds_per_period : Int
  current_period : Int
  current_round : Int
  finished : Bool
deriving DecidableEq

/-- Timeline.__init__: current_period = 1, current_round = -1,
finished = False. -/
def Timeline.init (total_periods rounds_per_period : Int) : Timeline :=
  { total_periods := total_periods
    rounds_per_period := rounds_per_period
    current_period := 1
    current_round := -1
    finished := false }

/-- Timeline.step (timeline.py lines 29-61).  Returns the emitted phase
string together with the updated scheduler state.  The final fall-through
line of the Python method (commented "Should not reach" in the source)
returns the string "finished" without setting the finished flag. -/
def Timeline.step (t : Timeline) : String × Timeline :=
  if t.finished then ("finished", t)
  else if t.current_round = 0 then
    ("trading", { t with current_round := 1 })
  else if 1 ≤ t.current_round ∧ t.current_round < t.rounds_per_period then
    ("trading", { t with current_round := t.current_round + 1 })
  else if t.current_round = t.rounds_per_period then
    ("period_end", { t with current_round := t.current_round + 1 })
  else if t.current_round > t.rounds_per_period then
    if t.current_period ≥ t.total_periods then
      ("finished", { t with finished := true })
    else
      ("settlement", { t with current_period := t.current_period + 1, current_round := 0 })
  else
    ("finished", t)

/-- The list of phases emitted by n successive calls to Timeline.step. -/
def Timeline.run : Timeline → Nat → List String
  | _, 0 => []
  | t, Nat.succ n =>
    let s := t.step
    s.1 :: s.2.run n

/-! ## project/core/state.py -/

/-- Embeds PendingTransfer (state.py lines 4-13). -/
structure PendingTransfer where
  release_time : Int
  cash_delta : Rat
  stock_delta : Int
deriving DecidableEq

/-- Embeds AccountState (state.py lines 16-46).  The last_wealth cache
is kept for completeness though the claims do not touch it. -/
structure AccountState where
  cash : Rat
  stock : Int
  pending_transfers : List PendingTransfer
  budget_policy : String
  equity_includes_pending : Bool
  exposure_includes_pending : Bool
  last_wealth : Option Rat
deriving DecidableEq

/-- AccountState.__init__ (state.py lines 22-46).  The Python
constructor only assigns attributes: it has no raise path, so the
embedding is a total function. -/
def AccountState.init (initial_cash : Rat) (initial_stock : Int)
    (budget_policy : String) (equity_includes_pending : Bool)
    (exposure_includes_pending : Bool) : AccountState :=
  { cash := initial_cash
    stock := initial_stock
    pending_transfers := []
    budget_policy := budget_policy
    equity_includes_pending := equity_includes_pending
    exposure_includes_pending := exposure_includes_pending
    last_wealth := none }

/-- The tolerance constant 1e-9 of state.py line 71, as an exact
rational. -/
def budgetTolerance : Rat := 1 / 1000000000

/-- AccountState.check_budget_constraint (state.py lines 48-71).
Returns Except because an unknown budget_policy raises ValueError.
The function reads the state and returns a Bool: it performs no
mutation, which the Except String Bool result type makes explicit. -/
def AccountState.check_budget_constraint (a : AccountState)
    (cash_delta : Rat) (stock_delta : Int) : Except String Bool :=
  let base :=
    if a.budget_policy = "strict_available" then
      Except.ok (a.cash, a.stock)
    else if a.budget_policy = "include_pending" then
      Except.ok
        (a.cash + (a.pending_transfers.map PendingTransfer.cash_delta).sum,
         a.stock + (a.pending_transfers.map PendingTransfer.stock_delta).sum)
    else
      Except.error ("Unknown budget_policy: " ++ a.budget_policy)
  match base with
  | Except.error e => Except.error e
  | Except.ok (base_cash, base_stock) =>
    let final_cash := base_cash + cash_delta
    let final_stock := base_stock + stock_delta
    Except.ok (decide (final_cash ≥ -budgetTolerance ∧ final_stock ≥ 0))

/-- AccountState.apply_trade (state.py lines 73-100).  A raised
ValueError (failed budget check under enforce_budget, or an unknown
policy propagating out of the check) is an Except.error result: the
Python exception fires before any mutation, so no successor state
exists in that case.  The error message of the source interpolates the
offending values; the embedding keeps a fixed message. -/
def AccountState.apply_trade (a : AccountState) (cash_delta : Rat)
    (stock_delta : Int) (current_time : Int) (settlement_lag : Int)
    (enforce_budget : Bool) : Except String AccountState :=
  let proceed : AccountState :=
    if settlement_lag = 0 then
      { a with cash := a.cash + cash_delta, stock := a.stock + stock_delta }
    else
      { a with pending_transfers :=
          a.pending_transfers ++
            [{ release_time := current_time + settlement_lag
               cash_delta := cash_delta
               stock_delta := stock_delta }] }
  if enforce_budget then
    match a.check_budget_constraint cash_delta stock_delta with
    | Except.error e => Except.error e
    | Except.ok false => Except.error ("Budget constraint violated!")
    | Except.ok true => Except.ok proceed
  else
    Except.ok proceed

/-- AccountState.process_settlements (state.py lines 102-119).  The
Python loop walks pending_transfers in order, adding the deltas of each
released transfer to the balances and collecting the rest; the fold
mirrors that traversal. -/
def AccountState.process_settlements (a : AccountState)
    (current_time : Int) : AccountState :=
  if a.pending_transfers = [] then a
  else
    let r := a.pending_transfers.foldl
      (fun (acc : Rat × Int × List PendingTransfer) (t : PendingTransfer) =>
        if current_time ≥ t.release_time then
          (acc.1 + t.cash_delta, acc.2.1 + t.stock_delta, acc.2.2)
        else
          (acc.1, acc.2.1, acc.2.2 ++ [t]))
      (a.cash, a.stock, [])
    { a with cash := r.1, stock := r.2.1, pending_transfers := r.2.2 }

/-! ## project/agents/base.py (the Order value consumed by the core) -/

/-- Embeds Order (base.py lines 9-14). -/
structure Order where
  agent_id : Int
  direction : Int
  order_type : String
  price : Rat
  quantity : Int
deriving DecidableEq

/-! ## project/market/orderbook.py -/

/-- Embeds BookEntry (orderbook.py lines 7-16). -/
structure BookEntry where
  price : Rat
  timestamp : Int
  order : Order
  remaining : Int
deriving DecidableEq

/-- A stored heap element (priority_price, timestamp, entry), mirroring
the tuples pushed by heapq in orderbook.py. -/
abbrev HeapElem := Rat × Int × BookEntry

/-- Comparison of heap elements by their (priority_price, timestamp)
key, the lexicographic tuple order used by Python heapq on these
elements (the third component never takes part in a comparison because
reachable books never hold two elements with equal keys). -/
def keyLe (x y : HeapElem) : Bool :=
  if x.1 < y.1 then true
  else if y.1 < x.1 then false
  else decide (x.2.1 ≤ y.2.1)

/-- Extraction of the least element under keyLe, together with the rest
of the list.  This models the observable behaviour of heapq: heap[0] is
the least stored tuple and heappop removes and returns it. -/
def popMin : List HeapElem → Option (HeapElem × List HeapElem)
  | [] => none
  | x :: xs =>
    match popMin xs with
    | none => some (x, [])
    | some (m, rest) =>
      if keyLe x m then some (x, xs) else some (m, x :: rest)

/-- heap[0]: the least element without removing it. -/
def heapPeek (l : List HeapElem) : Option HeapElem :=
  (popMin l).map Prod.fst

/-- Embeds OrderBook (orderbook.py lines 19-113).  The counter field is
the monotonic arrival-sequence counter of the source. -/
structure OrderBook where
  bids : List HeapElem
  asks : List HeapElem
  counter : Int
deriving DecidableEq

/-- OrderBook.__init__. -/
def OrderBook.empty : OrderBook :=
  { bids := [], asks := [], counter := 0 }

/-- OrderBook.add_limit (orderbook.py lines 47-69): rejects
non-positive quantity or price, otherwise draws a NEW timestamp from
the counter and pushes the entry on the proper side. -/
def OrderBook.add_limit (b : OrderBook) (o : Order) : OrderBook :=
  if o.quantity ≤ 0 then b
  else if o.price ≤ 0 then b
  else
    let ts := b.counter + 1
    let entry : BookEntry :=
      { price := o.price, timestamp := ts, order := o, remaining := o.quantity }
    if o.direction = 1 then
      { b with counter := ts, bids := b.bids ++ [(-entry.price, entry.timestamp, entry)] }
    else
      { b with counter := ts, asks := b.asks ++ [(entry.price, entry.timestamp, entry)] }

/-- OrderBook.reinsert (orderbook.py lines 71-82): re-adds a partially
filled entry, keeping entry.timestamp and leaving the counter alone. -/
def OrderBook.reinsert (b : OrderBook) (e : BookEntry) : OrderBook :=
  if e.remaining ≤ 0 then b
  else if e.order.direction = 1 then
    { b with bids := b.bids ++ [(-e.price, e.timestamp, e)] }
  else
    { b with asks := b.asks ++ [(e.price, e.timestamp, e)] }

/-- OrderBook.best_bid (orderbook.py line 87). -/
def OrderBook.best_bid (b : OrderBook) : Option Rat :=
  (heapPeek b.bids).map (fun x => -x.1)

/-- OrderBook.best_ask (orderbook.py line 90). -/
def OrderBook.best_ask (b : OrderBook) : Option Rat :=
  (heapPeek b.asks).map (fun x => x.1)

/-- OrderBook.peek_best_bid (orderbook.py line 93). -/
def OrderBook.peek_best_bid (b : OrderBook) : Option BookEntry :=
  (heapPeek b.bids).map (fun x => x.2.2)

/-- OrderBook.peek_best_ask (orderbook.py line 96). -/
def OrderBook.peek_best_ask (b : OrderBook) : Option BookEntry :=
  (heapPeek b.asks).map (fun x => x.2.2)

/-- OrderBook.pop_best_bid (orderbook.py lines 100-102).  heappop on an
empty list raises IndexError, modelled as Except.error. -/
def OrderBook.pop_best_bid (b : OrderBook) : Except String (BookEntry × OrderBook) :=
  match popMin b.bids with
  | none => Except.error ("IndexError: index out of range")
  | some (x, rest) => Except.ok (x.2.2, { b with bids := rest })

/-- OrderBook.pop_best_ask (orderbook.py lines 104-106). -/
def OrderBook.pop_best_ask (b : OrderBook) : Except String (BookEntry × OrderBook) :=
  match popMin b.asks with
  | none => Except.error ("IndexError: index out of range")
  | some (x, rest) => Except.ok (x.2.2, { b with asks := rest })

/-! ## project/regulation/rules.py -/

/-- Embeds PriceLimitRule (rules.py lines 3-15); enabled and threshold
are the values the constructor reads from configuration. -/
structure PriceLimitRule where
  enabled : Bool
  threshold : Rat
deriving DecidableEq

/-- PriceLimitRule.is_valid_price (rules.py lines 10-15). -/
def PriceLimitRule.is_valid_price (r : PriceLimitRule) (price : Rat)
    (ref_price : Option Rat) : Bool :=
  if !r.enabled then true
  else
    match ref_price with
    | none => true
    | some ref =>
      decide (ref * (1 - r.threshold) ≤ price ∧ price ≤ ref * (1 + r.threshold))

/-- Embeds TransactionTaxRule (rules.py lines 17-26). -/
structure TransactionTaxRule where
  enabled : Bool
  rate : Rat
deriving DecidableEq

/-- TransactionTaxRule.calculate_tax (rules.py lines 24-26). -/
def TransactionTaxRule.calculate_tax (r : TransactionTaxRule)
    (price : Rat) (quantity : Int) : Rat :=
  if !r.enabled then 0 else price * quantity * r.rate

/-! ## project/market/cda.py -/

/-- Embeds Trade (cda.py lines 7-16). -/
structure Trade where
  price : Rat
  quantity : Int
  buyer_id : Int
  seller_id : Int
  tax_amount : Rat
  timestamp : Int
deriving DecidableEq

/-- Embeds CDAEngine (cda.py lines 19-39).  The configuration lookup of
the constructor reduces to the injected rules and the optional initial
reference price. -/
structure CDAEngine where
  book : OrderBook
  pl_rule : PriceLimitRule
  tt_rule : TransactionTaxRule
  last_close_price : Option Rat
  trade_counter : Int
  last_transaction_price : Option Rat
  trades_this_period : List Trade
deriving DecidableEq

/-- CDAEngine.__init__ (cda.py lines 24-39). -/
def CDAEngine.init (pl_rule : PriceLimitRule) (tt_rule : TransactionTaxRule)
    (initial_price : Option Rat) : CDAEngine :=
  { book := OrderBook.empty
    pl_rule := pl_rule
    tt_rule := tt_rule
    last_close_price := initial_price
    trade_counter := 0
    last_transaction_price := none
    trades_this_period := [] }

/-- The matching loop of CDAEngine.process_order (cda.py lines 72-133),
with explicit fuel.  Every iteration either stops or pops one entry
from the opposite side, and an entry is reinserted only when the order
itself is exhausted, so on any reachable book the loop runs at most
(side length + 1) iterations; the fuel passed by process_order covers
that bound and the zero-fuel fallback is never taken there.  Returns
(trades, remaining, engine). -/
def CDAEngine.match_loop : CDAEngine → Order → Int → Nat → List Trade × Int × CDAEngine
  | e, _, remaining, 0 => ([], remaining, e)
  | e, o, remaining, Nat.succ fuel =>
    if remaining ≤ 0 then ([], remaining, e)
    else
      let best_entry := if o.direction = 1 then e.book.peek_best_ask else e.book.peek_best_bid
      let match_price := if o.direction = 1 then e.book.best_ask else e.book.best_bid
      match best_entry, match_price with
      | none, _ => ([], remaining, e)
      | some _, none => ([], remaining, e)
      | some best_entry, some match_price =>
        if o.order_type = "limit" ∧ o.direction = 1 ∧ o.price < match_price then
          ([], remaining, e)
        else if o.order_type = "limit" ∧ o.direction = -1 ∧ match_price < o.price then
          ([], remaining, e)
        else if !(e.pl_rule.is_valid_price match_price e.last_close_price) then
          ([], remaining, e)
        else
          let qty := min remaining best_entry.remaining
          let tax := e.tt_rule.calculate_tax match_price qty
          let ctr := e.trade_counter + 1
          let buyer_id := if o.direction = 1 then o.agent_id else best_entry.order.agent_id
          let seller_id := if o.direction = 1 then best_entry.order.agent_id else o.agent_id
          let trade : Trade :=
            { price := match_price, quantity := qty, buyer_id := buyer_id
              seller_id := seller_id, tax_amount := tax, timestamp := ctr }
          let popRes := if o.direction = 1 then e.book.pop_best_ask else e.book.pop_best_bid
          match popRes with
          | Except.error _ => ([], remaining, e)
          | Except.ok (popped, book1) =>
            let popped1 : BookEntry := { popped with remaining := popped.remaining - qty }
            let book2 := if popped1.remaining > 0 then book1.reinsert popped1 else book1
            let e1 : CDAEngine :=
              { e with book := book2
                       trade_counter := ctr
                       last_transaction_price := some match_price
                       trades_this_period := e.trades_this_period ++ [trade] }
            let rec1 := CDAEngine.match_loop e1 o (remaining - qty) fuel
            (trade :: rec1.1, rec1.2.1, rec1.2.2)

/-- Fuel bound for the matching loop: more than the number of resting
entries plus the order quantity. -/
def CDAEngine.loop_fuel (e : CDAEngine) (o : Order) : Nat :=
  e.book.bids.length + e.book.asks.length + o.quantity.toNat + 1

/-- CDAEngine.process_order (cda.py lines 50-141): validation, the
submission-time price-limit check for limit orders, the matching loop,
then the post-match resting step (cda.py lines 135-137) that offers the
remainder to the book whenever the order price passes the price-limit
check. -/
def CDAEngine.process_order (e : CDAEngine) (o : Order) : List Trade × CDAEngine :=
  if o.quantity ≤ 0 then ([], e)
  else if ¬(o.order_type = "market" ∨ o.order_type = "limit") then ([], e)
  else if ¬(o.direction = 1 ∨ o.direction = -1) then ([], e)
  else if o.order_type = "limit" ∧ o.price ≤ 0 then ([], e)
  else if o.order_type = "limit" ∧
      !(e.pl_rule.is_valid_price o.price e.last_close_price) then ([], e)
  else
    let L := e.match_loop o o.quantity (e.loop_fuel o)
    let e1 := L.2.2
    let e2 :=
      if e1.pl_rule.is_valid_price o.price e1.last_close_price then
        { e1 with book := e1.book.add_limit { o with quantity := L.2.1 } }
      else e1
    (L.1, e2)

/-! ## Claim C1 (scheduler trace) -/

/-- C1: the claim demands that a fresh Timeline with total_periods = 2
and rounds_per_period = 3 emit the trace settlement, trading, trading,
trading, period_end, settlement, trading, trading, trading, period_end,
finished over eleven calls, the first call yielding settlement.  The
code violates this: the sentinel current_round = -1 set by __init__
matches none of the branches of Timeline.step, so the very first call
falls through to the final line (commented "Should not reach" in the
source) and returns "finished"; the state is unchanged, so all eleven
calls return "finished" and "settlement" is never emitted. -/
theorem c1_first_step_reports_finished :
    Timeline.run (Timeline.init 2 3) 11 = List.replicate 11 "finished" ∧
    ((Timeline.init 2 3).step.1 = "finished" ∧
      (Timeline.init 2 3).step.1 ≠ "settlement") := by
  decide

/-! ## Claim C4 (unknown budget policy) -/

/-- C4 counterexample: with the unknown policy name "bogus",
AccountState.__init__ completes normally (it only assigns attributes,
so the embedding is a total function and the constructed state is the
plain record below), and the ValueError surfaces only on the first call
to check_budget_constraint — refuting the claim that construction
itself raises and the error is never deferred to runtime. -/
theorem c4_counterexample_construction_succeeds :
    AccountState.init 100 10 "bogus" true true =
      { cash := 100, stock := 10, pending_transfers := []
        budget_policy := "bogus", equity_includes_pending := true
        exposure_includes_pending := true, last_wealth := none } ∧
    (AccountState.init 100 10 "bogus" true true).check_budget_constraint 0 0 =
      Except.error ("Unknown budget_policy: " ++ "bogus") := by
  exact ⟨rfl, rfl⟩

/-- C4 amended: constructing an account with an unknown budget-policy
name succeeds (the constructor stores the name without validation and
all fields are initialised normally); the fatal error is deferred to
runtime and raised by the first call to check_budget_constraint. -/
theorem c4_amended_unknown_policy_error_is_deferred
    (c : Rat) (s : Int) (eqp exp1 : Bool) (pol : String) (cd : Rat) (sd : Int)
    (h1 : pol ≠ "strict_available") (h2 : pol ≠ "include_pending") :
    (AccountState.init c s pol eqp exp1).budget_policy = pol ∧
    (AccountState.init c s pol eqp exp1).cash = c ∧
    (AccountState.init c s pol eqp exp1).stock = s ∧
    (AccountState.init c s pol eqp exp1).pending_transfers = [] ∧
    (AccountState.init c s pol eqp exp1).check_budget_constraint cd sd =
      Except.error ("Unknown budget_policy: " ++ pol) := by
  refine ⟨rfl, rfl, rfl, rfl, ?_⟩
  simp [AccountState.init, AccountState.check_budget_constraint, h1, h2]

/-- Witness for the amended C4 at the concrete policy name "bogus". -/
theorem c4_amended_witness :
    ("bogus" : String) ≠ "strict_available" ∧ ("bogus" : String) ≠ "include_pending" ∧
    ((AccountState.init 100 10 "bogus" true true).budget_policy = "bogus" ∧
      (AccountState.init 100 10 "bogus" true true).cash = 100 ∧
      (AccountState.init 100 10 "bogus" true true).stock = 10 ∧
      (AccountState.init 100 10 "bogus" true true).pending_transfers = [] ∧
      (AccountState.init 100 10 "bogus" true true).check_budget_constraint 5 (-2) =
        Except.error ("Unknown budget_policy: " ++ "bogus")) :=
  ⟨by decide, by decide,
    c4_amended_unknown_policy_error_is_deferred 100 10 true true "bogus" 5 (-2)
      (by decide) (by decide)⟩

/-! ## Claim C6 (budget constraint characterisation) -/

/-- C6: under either recognised budget basis, check_budget_constraint
is a pure predicate (the embedding returns only a Bool — the Python
method reads attributes and mutates nothing) computing the baseline
(settled balances for "strict_available", settled plus pending sums for
"include_pending"), adding the proposed deltas, and returning true iff
the resulting cash is at least -1e-9 and the resulting stock is at
least 0. -/
theorem c6_check_budget_constraint_characterisation
    (a : AccountState) (cd : Rat) (sd : Int)
    (h : a.budget_policy = "strict_available" ∨ a.budget_policy = "include_pending") :
    a.check_budget_constraint cd sd =
      Except.ok (decide (
        ((if a.budget_policy = "strict_available" then a.cash
          else a.cash + (a.pending_transfers.map PendingTransfer.cash_delta).sum)
            + cd ≥ -budgetTolerance) ∧
        ((if a.budget_policy = "strict_available" then a.stock
          else a.stock + (a.pending_transfers.map PendingTransfer.stock_delta).sum)
            + sd ≥ 0))) := by
  rcases h with h | h <;>
    simp [AccountState.check_budget_constraint, h]

/-- Witness for C6: a concrete "include_pending" account with one
pending transfer; the check credits the pending deltas. -/
theorem c6_witness :
    (({ cash := 10, stock := 1
        pending_transfers := [{ release_time := 5, cash_delta := -4, stock_delta := 1 }]
        budget_policy := "include_pending", equity_includes_pending := true
        exposure_includes_pending := true, last_wealth := none } : AccountState).budget_policy
          = "strict_available" ∨
      ({ cash := 10, stock := 1
         pending_transfers := [{ release_time := 5, cash_delta := -4, stock_delta := 1 }]
         budget_policy := "include_pending", equity_includes_pending := true
         exposure_includes_pending := true, last_wealth := none } : AccountState).budget_policy
          = "include_pending") ∧
    ({ cash := 10, stock := 1
       pending_transfers := [{ release_time := 5, cash_delta := -4, stock_delta := 1 }]
       budget_policy := "include_pending", equity_includes_pending := true
       exposure_includes_pending := true, last_wealth := none } : AccountState).check_budget_constraint (-6) 0 =
      Except.ok (decide (
        ((if ("include_pending" : String) = "strict_available" then (10 : Rat)
          else 10 + ((-4 : Rat))) + (-6) ≥ -budgetTolerance) ∧
        ((if ("include_pending" : String) = "strict_available" then (1 : Int)
          else 1 + 1) + 0 ≥ 0))) := by
  refine ⟨Or.inr rfl, ?_⟩
  have h := c6_check_budget_constraint_characterisation
    { cash := 10, stock := 1
      pending_transfers := [{ release_time := 5, cash_delta := -4, stock_delta := 1 }]
      budget_policy := "include_pending", equity_includes_pending := true
      exposure_includes_pending := true, last_wealth := none } (-6) 0 (Or.inr rfl)
  simpa using h

/-! ## Claim C5 (apply_trade contract) -/

/-- C5: with enforce_budget = true, apply_trade raises (Except.error —
the Python ValueError fires before any mutation, so no successor state
exists and cash, stock and the pending list are untouched) whenever
check_budget_constraint returns false; when the check passes, a zero
settlement_lag adds the deltas to cash and stock immediately, and a
positive settlement_lag leaves the balances unchanged and appends
exactly one PendingTransfer with release_time = current_time +
settlement_lag carrying the deltas. -/
theorem c5_apply_trade_contract (a : AccountState) (cd : Rat)
    (sd t lag : Int) (b : Bool)
    (hchk : a.check_budget_constraint cd sd = Except.ok b) :
    (b = false →
      a.apply_trade cd sd t lag true = Except.error ("Budget constraint violated!")) ∧
    (b = true → lag = 0 →
      a.apply_trade cd sd t lag true =
        Except.ok { a with cash := a.cash + cd, stock := a.stock + sd }) ∧
    (b = true → 0 < lag →
      a.apply_trade cd sd t lag true =
        Except.ok { a with pending_transfers := a.pending_transfers ++
          [{ release_time := t + lag, cash_delta := cd, stock_delta := sd }] }) := by
  refine ⟨fun hb => ?_, fun hb h0 => ?_, fun hb hpos => ?_⟩
  · subst hb
    simp [AccountState.apply_trade, hchk]
  · subst hb; subst h0
    simp [AccountState.apply_trade, hchk]
  · subst hb
    have hne : lag ≠ 0 := by omega
    simp [AccountState.apply_trade, hchk, hne]

/-- Witness for C5 at a concrete account: a failing check errors, and a
passing check settles immediately at lag 0 and defers at lag 1. -/
theorem c5_witness :
    (AccountState.init 100 10 "strict_available" true true).check_budget_constraint
        (-40) 2 = Except.ok true ∧
    (AccountState.init 100 10 "strict_available" true true).apply_trade
        (-40) 2 7 1 true =
      Except.ok { (AccountState.init 100 10 "strict_available" true true) with
        pending_transfers := [{ release_time := 7 + 1, cash_delta := -40, stock_delta := 2 }] } := by
  have hchk : (AccountState.init 100 10 "strict_available" true true).check_budget_constraint
      (-40) 2 = Except.ok true := by
    simp [AccountState.init, AccountState.check_budget_constraint, budgetTolerance]
    norm_num
  exact ⟨hchk,
    (c5_apply_trade_contract (AccountState.init 100 10 "strict_available" true true)
      (-40) 2 7 1 true hchk).2.2 rfl (by decide)⟩

/-! ## Claim C7 (pending transfer settled exactly once) -/

/-- C7: starting from an account with no pending transfers whose budget
check passes, apply_trade with lag = 1 at period t changes no balances
and records one PendingTransfer releasing at t + 1; process_settlements
at t applies nothing and retains the transfer; process_settlements at
t + 1 adds the deltas exactly once and empties the pending list; and a
second process_settlements at t + 1 is a no-op. -/
theorem c7_pending_transfer_settled_exactly_once (a : AccountState)
    (cd : Rat) (sd t : Int)
    (hp : a.pending_transfers = [])
    (hchk : a.check_budget_constraint cd sd = Except.ok true) :
    ∃ a1, a.apply_trade cd sd t 1 true = Except.ok a1 ∧
      a1.cash = a.cash ∧ a1.stock = a.stock ∧
      a1.pending_transfers =
        [{ release_time := t + 1, cash_delta := cd, stock_delta := sd }] ∧
      a1.process_settlements t = a1 ∧
      (a1.process_settlements (t + 1)).cash = a.cash + cd ∧
      (a1.process_settlements (t + 1)).stock = a.stock + sd ∧
      (a1.process_settlements (t + 1)).pending_transfers = [] ∧
      (a1.process_settlements (t + 1)).process_settlements (t + 1) =
        a1.process_settlements (t + 1) := by
  refine ⟨{ a with pending_transfers :=
    [{ release_time := t + 1, cash_delta := cd, stock_delta := sd }] },
    ?_, rfl, rfl, rfl, ?_, ?_, ?_, ?_, ?_⟩
  · simp [AccountState.apply_trade, hchk, hp]
  · simp [AccountState.process_settlements, (by omega : ¬ t ≥ t + 1)]
  · simp [AccountState.process_settlements]
  · simp [AccountState.process_settlements]
  · simp [AccountState.process_settlements]
  · simp [AccountState.process_settlements]

/-- Witness for C7 at a concrete account and trade. -/
theorem c7_witness :
    (AccountState.init 50 5 "include_pending" true true).pending_transfers = [] ∧
    (AccountState.init 50 5 "include_pending" true true).check_budget_constraint
      (-20) 1 = Except.ok true ∧
    (∃ a1, (AccountState.init 50 5 "include_pending" true true).apply_trade
        (-20) 1 3 1 true = Except.ok a1 ∧
      a1.cash = (AccountState.init 50 5 "include_pending" true true).cash ∧
      a1.stock = (AccountState.init 50 5 "include_pending" true true).stock ∧
      a1.pending_transfers =
        [{ release_time := 3 + 1, cash_delta := -20, stock_delta := 1 }] ∧
      a1.process_settlements 3 = a1 ∧
      (a1.process_settlements (3 + 1)).cash =
        (AccountState.init 50 5 "include_pending" true true).cash + (-20) ∧
      (a1.process_settlements (3 + 1)).stock =
        (AccountState.init 50 5 "include_pending" true true).stock + 1 ∧
      (a1.process_settlements (3 + 1)).pending_transfers = [] ∧
      (a1.process_settlements (3 + 1)).process_settlements (3 + 1) =
        a1.process_settlements (3 + 1)) := by
  have hchk : (AccountState.init 50 5 "include_pending" true true).check_budget_constraint
      (-20) 1 = Except.ok true := by
    simp [AccountState.init, AccountState.check_budget_constraint, budgetTolerance]
    norm_num
  exact ⟨rfl, hchk,
    c7_pending_transfer_settled_exactly_once
      (AccountState.init 50 5 "include_pending" true true) (-20) 1 3 rfl hchk⟩

/-! ## Claim C2 (reinsert preserves the arrival sequence number) -/

/-- C2: the matching loop pops an entry, decrements its remaining
quantity in place (the record update below, which leaves the timestamp
field untouched) and reinserts it when remaining is still positive.
OrderBook.reinsert pushes the entry back keyed by its ORIGINAL
timestamp and never touches the arrival-sequence counter, so no new
sequence number is drawn and a partially filled entry keeps the number
assigned at first insertion — hence its queue priority over later
arrivals — across any number of partial fills. -/
theorem c2_reinsert_keeps_original_timestamp (b : OrderBook)
    (e : BookEntry) (qty : Int) (h : 0 < e.remaining - qty) :
    ({ e with remaining := e.remaining - qty } : BookEntry).timestamp = e.timestamp ∧
    (b.reinsert { e with remaining := e.remaining - qty }).counter = b.counter ∧
    (e.order.direction = 1 →
      (b.reinsert { e with remaining := e.remaining - qty }).bids =
        b.bids ++ [(-e.price, e.timestamp, { e with remaining := e.remaining - qty })] ∧
      (b.reinsert { e with remaining := e.remaining - qty }).asks = b.asks) ∧
    (¬ e.order.direction = 1 →
      (b.reinsert { e with remaining := e.remaining - qty }).asks =
        b.asks ++ [(e.price, e.timestamp, { e with remaining := e.remaining - qty })] ∧
      (b.reinsert { e with remaining := e.remaining - qty }).bids = b.bids) := by
  have hne : ¬ e.remaining - qty ≤ 0 := by omega
  refine ⟨rfl, ?_, fun hd => ?_, fun hd => ?_⟩
  · simp only [OrderBook.reinsert, if_neg hne]
    split <;> rfl
  · simp [OrderBook.reinsert, hne, hd]
  · simp [OrderBook.reinsert, hne, hd]

/-- Witness for C2: a sell entry partially filled by 2 units goes back
on the ask side with its original timestamp 1. -/
theorem c2_witness :
    (0 : Int) < (5 : Int) - 2 ∧
    (let e : BookEntry :=
      { price := 10, timestamp := 1
        order := { agent_id := 4, direction := -1, order_type := "limit", price := 10, quantity := 5 }
        remaining := 5 }
     ({ e with remaining := e.remaining - 2 } : BookEntry).timestamp = e.timestamp ∧
     (OrderBook.empty.reinsert { e with remaining := e.remaining - 2 }).counter =
        OrderBook.empty.counter ∧
     (e.order.direction = 1 →
       (OrderBook.empty.reinsert { e with remaining := e.remaining - 2 }).bids =
         OrderBook.empty.bids ++ [(-e.price, e.timestamp, { e with remaining := e.remaining - 2 })] ∧
       (OrderBook.empty.reinsert { e with remaining := e.remaining - 2 }).asks =
         OrderBook.empty.asks) ∧
     (¬ e.order.direction = 1 →
       (OrderBook.empty.reinsert { e with remaining := e.remaining - 2 }).asks =
         OrderBook.empty.asks ++ [(e.price, e.timestamp, { e with remaining := e.remaining - 2 })] ∧
       (OrderBook.empty.reinsert { e with remaining := e.remaining - 2 }).bids =
         OrderBook.empty.bids)) :=
  ⟨by decide,
    c2_reinsert_keeps_original_timestamp OrderBook.empty
      { price := 10, timestamp := 1
        order := { agent_id := 4, direction := -1, order_type := "limit", price := 10, quantity := 5 }
        remaining := 5 } 2 (by decide)⟩

/-! ## Claim C3 (three-order matching scenario) -/

/-- A disabled price-limit rule: is_valid_price accepts every price. -/
def plOff : PriceLimitRule := { enabled := false, threshold := 1 / 10 }

/-- A disabled transaction-tax rule: tax is always zero. -/
def ttOff : TransactionTaxRule := { enabled := false, rate := 1 / 1000 }

/-- The three orders of the C3 scenario. -/
def c3Order1 : Order :=
  { agent_id := 1, direction := 1, order_type := "limit", price := 10, quantity := 5 }

/-- Second scenario order: sell limit 3 at 9. -/
def c3Order2 : Order :=
  { agent_id := 2, direction := -1, order_type := "limit", price := 9, quantity := 3 }

/-- Third scenario order: sell limit 4 at 10. -/
def c3Order3 : Order :=
  { agent_id := 3, direction := -1, order_type := "limit", price := 10, quantity := 4 }

/-- Result of processing the first scenario order on a fresh engine. -/
def c3Step1 : List Trade × CDAEngine :=
  (CDAEngine.init plOff ttOff none).process_order c3Order1

/-- Result of processing the second scenario order. -/
def c3Step2 : List Trade × CDAEngine := c3Step1.2.process_order c3Order2

/-- Result of processing the third scenario order. -/
def c3Step3 : List Trade × CDAEngine := c3Step2.2.process_order c3Order3

/-- C3: on an empty book with the price-limit rule rejecting nothing:
a buy limit 5 at 10 trades nothing and rests (best_bid 10); a sell
limit 3 at 9 produces exactly one trade at the RESTING price 10 for
quantity 3, leaving the bid with remaining 2 at its original arrival
sequence number 1; a sell limit 4 at 10 produces exactly one trade at
10 for quantity 2 exhausting the bid, and its remainder 2 rests as the
new ask at 10. -/
theorem c3_matching_scenario :
    c3Step1.1 = [] ∧
    c3Step1.2.book.best_bid = some 10 ∧
    c3Step2.1.map (fun t => (t.price, t.quantity)) = [((10 : Rat), (3 : Int))] ∧
    c3Step2.2.book.best_bid = some 10 ∧
    (c3Step2.2.book.peek_best_bid).map (fun en => (en.remaining, en.timestamp)) =
      some (2, 1) ∧
    c3Step3.1.map (fun t => (t.price, t.quantity)) = [((10 : Rat), (2 : Int))] ∧
    c3Step3.2.book.best_bid = none ∧
    c3Step3.2.book.best_ask = some 10 ∧
    (c3Step3.2.book.peek_best_ask).map (fun en => (en.remaining, en.price)) =
      some (2, 10) := by
  decide

/-! ## Heap-extraction lemmas (shared) -/

/-- Characterisation of the lexicographic key comparison. -/
theorem keyLe_iff (x y : HeapElem) :
    keyLe x y = true ↔ x.1 < y.1 ∨ (x.1 = y.1 ∧ x.2.1 ≤ y.2.1) := by
  unfold keyLe
  split_ifs with h1 h2
  · simp [h1]
  · simp only [Bool.false_eq_true, false_iff]
    rintro (h | ⟨he, _⟩)
    · exact h1 h
    · rw [he] at h2; exact lt_irrefl _ h2
  · have he : x.1 = y.1 := le_antisymm (not_lt.mp h2) (not_lt.mp h1)
    simp only [decide_eq_true_eq]
    constructor
    · intro h; exact Or.inr ⟨he, h⟩
    · rintro (h | ⟨_, h⟩)
      · exact absurd h h1
      · exact h

/-- keyLe is reflexive. -/
theorem keyLe_refl (x : HeapElem) : keyLe x x = true := by
  rw [keyLe_iff]; exact Or.inr ⟨rfl, le_refl _⟩

/-- keyLe is transitive. -/
theorem keyLe_trans {x y z : HeapElem} (h1 : keyLe x y = true)
    (h2 : keyLe y z = true) : keyLe x z = true := by
  rw [keyLe_iff] at h1 h2 ⊢
  rcases h1 with h1 | ⟨e1, t1⟩ <;> rcases h2 with h2 | ⟨e2, t2⟩
  · exact Or.inl (lt_trans h1 h2)
  · exact Or.inl (e2 ▸ h1)
  · exact Or.inl (e1 ▸ h2)
  · exact Or.inr ⟨e1.trans e2, le_trans t1 t2⟩

/-- keyLe is total. -/
theorem keyLe_total (x y : HeapElem) : keyLe x y = true ∨ keyLe y x = true := by
  rcases lt_trichotomy x.1 y.1 with h | h | h
  · exact Or.inl ((keyLe_iff x y).mpr (Or.inl h))
  · rcases le_total x.2.1 y.2.1 with ht | ht
    · exact Or.inl ((keyLe_iff x y).mpr (Or.inr ⟨h, ht⟩))
    · exact Or.inr ((keyLe_iff y x).mpr (Or.inr ⟨h.symm, ht⟩))
  · exact Or.inr ((keyLe_iff y x).mpr (Or.inl h))

/-- popMin returns none exactly on the empty list (heappop raises on an
empty heap, heap[0] raises on an empty list). -/
theorem popMin_eq_none_iff (l : List HeapElem) : popMin l = none ↔ l = [] := by
  cases l with
  | nil => simp [popMin]
  | cons x xs =>
    simp only [popMin]
    cases popMin xs with
    | none => simp
    | some m =>
      obtain ⟨m, rest⟩ := m
      simp only []
      split <;> simp

/-- The extracted element is a member of the list. -/
theorem popMin_mem : ∀ {l : List HeapElem} {x : HeapElem} {rest : List HeapElem},
    popMin l = some (x, rest) → x ∈ l := by
  intro l
  induction l with
  | nil => intro x rest h; simp [popMin] at h
  | cons a as ih =>
    intro x rest h
    rw [popMin] at h
    cases hm : popMin as with
    | none =>
      rw [hm] at h
      simp only [Option.some.injEq, Prod.mk.injEq] at h
      exact h.1 ▸ List.mem_cons_self a as
    | some m =>
      obtain ⟨m, r⟩ := m
      rw [hm] at h
      simp only [] at h
      split at h <;> simp only [Option.some.injEq, Prod.mk.injEq] at h
      · exact h.1 ▸ List.mem_cons_self a as
      · exact h.1 ▸ List.mem_cons_of_mem a (ih hm)

/-- The extracted element is least under keyLe among all members. -/
theorem popMin_le : ∀ {l : List HeapElem} {x : HeapElem} {rest : List HeapElem},
    popMin l = some (x, rest) → ∀ y ∈ l, keyLe x y = true := by
  intro l
  induction l with
  | nil => intro x rest h; simp [popMin] at h
  | cons a as ih =>
    intro x rest h y hy
    rw [popMin] at h
    cases hm : popMin as with
    | none =>
      rw [hm] at h
      simp only [Option.some.injEq, Prod.mk.injEq] at h
      obtain ⟨hx, hr⟩ := h
      subst hx
      have : as = [] := (popMin_eq_none_iff as).mp hm
      subst this
      rcases List.mem_cons.mp hy with hy | hy
      · exact hy ▸ keyLe_refl _
      · simp at hy
    | some m =>
      obtain ⟨m, r⟩ := m
      rw [hm] at h
      simp only [] at h
      split at h
      · rename_i hk
        simp only [Option.some.injEq, Prod.mk.injEq] at h
        obtain ⟨hx, hr⟩ := h
        subst hx
        rcases List.mem_cons.mp hy with hy | hy
        · exact hy ▸ keyLe_refl _
        · exact keyLe_trans hk (ih hm y hy)
      · rename_i hk
        simp only [Option.some.injEq, Prod.mk.injEq] at h
        obtain ⟨hx, hr⟩ := h
        subst hx
        rcases List.mem_cons.mp hy with hy | hy
        · subst hy
          rcases keyLe_total y m with hh | hh
          · exact absurd hh hk
          · exact hh
        · exact ih hm y hy

/-- Every element of the remainder was a member of the list. -/
theorem popMin_rest_mem : ∀ {l : List HeapElem} {x : HeapElem} {rest : List HeapElem},
    popMin l = some (x, rest) → ∀ y ∈ rest, y ∈ l := by
  intro l
  induction l with
  | nil => intro x rest h; simp [popMin] at h
  | cons a as ih =>
    intro x rest h y hy
    rw [popMin] at h
    cases hm : popMin as with
    | none =>
      rw [hm] at h
      simp only [Option.some.injEq, Prod.mk.injEq] at h
      rw [← h.2] at hy
      simp at hy
    | some m =>
      obtain ⟨m, r⟩ := m
      rw [hm] at h
      simp only [] at h
      split at h <;> simp only [Option.some.injEq, Prod.mk.injEq] at h <;>
        obtain ⟨hx, hr⟩ := h <;> subst hr
      · exact List.mem_cons_of_mem a hy
      · rcases List.mem_cons.mp hy with hy | hy
        · exact hy ▸ List.mem_cons_self a as
        · exact List.mem_cons_of_mem a (ih hm y hy)

/-! ## Claim C10 (pop is partial on an empty side) -/

/-- C10: on an empty side, pop_best_bid and pop_best_ask raise (the
IndexError of heappop on an empty list, an Except.error here) instead
of returning none, while best_bid, best_ask, peek_best_bid and
peek_best_ask return none; on a nonempty side the pops succeed, so the
caller must check emptiness before popping. -/
theorem c10_pop_is_partial_on_empty_side (b : OrderBook) :
    (b.bids = [] →
      b.pop_best_bid = Except.error ("IndexError: index out of range") ∧
      b.best_bid = none ∧ b.peek_best_bid = none) ∧
    (b.asks = [] →
      b.pop_best_ask = Except.error ("IndexError: index out of range") ∧
      b.best_ask = none ∧ b.peek_best_ask = none) ∧
    (b.bids ≠ [] → ∃ e b2, b.pop_best_bid = Except.ok (e, b2)) ∧
    (b.asks ≠ [] → ∃ e b2, b.pop_best_ask = Except.ok (e, b2)) := by
  refine ⟨fun h => ?_, fun h => ?_, fun h => ?_, fun h => ?_⟩
  · simp [OrderBook.pop_best_bid, OrderBook.best_bid, OrderBook.peek_best_bid,
      heapPeek, h, popMin]
  · simp [OrderBook.pop_best_ask, OrderBook.best_ask, OrderBook.peek_best_ask,
      heapPeek, h, popMin]
  · cases hm : popMin b.bids with
    | none => exact absurd ((popMin_eq_none_iff _).mp hm) h
    | some p =>
      obtain ⟨x, rest⟩ := p
      exact ⟨x.2.2, { b with bids := rest }, by simp [OrderBook.pop_best_bid, hm]⟩
  · cases hm : popMin b.asks with
    | none => exact absurd ((popMin_eq_none_iff _).mp hm) h
    | some p =>
      obtain ⟨x, rest⟩ := p
      exact ⟨x.2.2, { b with asks := rest }, by simp [OrderBook.pop_best_ask, hm]⟩

/-- Witness for C10: the empty book has both sides empty, so both pops
raise while the query methods return none. -/
theorem c10_witness :
    OrderBook.empty.bids = [] ∧
    (OrderBook.empty.pop_best_bid = Except.error ("IndexError: index out of range") ∧
      OrderBook.empty.best_bid = none ∧ OrderBook.empty.peek_best_bid = none) ∧
    OrderBook.empty.asks = [] ∧
    (OrderBook.empty.pop_best_ask = Except.error ("IndexError: index out of range") ∧
      OrderBook.empty.best_ask = none ∧ OrderBook.empty.peek_best_ask = none) :=
  ⟨rfl, (c10_pop_is_partial_on_empty_side OrderBook.empty).1 rfl,
    rfl, (c10_pop_is_partial_on_empty_side OrderBook.empty).2.1 rfl⟩

/-! ## Claim C9 (resting of the post-match remainder) -/

/-- The number of resting entries on the book (both sides). -/
def OrderBook.size (b : OrderBook) : Nat := b.bids.length + b.asks.length

/-- add_limit grows the book by exactly one entry unless its own
validation (non-positive quantity or price) rejects the order. -/
theorem add_limit_size (b : OrderBook) (o : Order) :
    (b.add_limit o).size =
      if o.quantity ≤ 0 ∨ o.price ≤ 0 then b.size else b.size + 1 := by
  unfold OrderBook.add_limit OrderBook.size
  by_cases h1 : o.quantity ≤ 0
  · simp [h1]
  by_cases h2 : o.price ≤ 0
  · simp [h1, h2]
  rw [if_neg h1, if_neg h2, if_neg (by tauto : ¬(o.quantity ≤ 0 ∨ o.price ≤ 0))]
  split <;> simp [List.length_append] <;> omega

/-- The matching loop never changes the injected price-limit rule or
the session reference price. -/
theorem match_loop_preserves_rule_fields (o : Order) :
    ∀ (fuel : Nat) (e : CDAEngine) (rem : Int),
      (e.match_loop o rem fuel).2.2.pl_rule = e.pl_rule ∧
      (e.match_loop o rem fuel).2.2.last_close_price = e.last_close_price := by
  intro fuel
  induction fuel with
  | zero => intro e rem; exact ⟨rfl, rfl⟩
  | succ n ih =>
    intro e rem
    rw [CDAEngine.match_loop]
    dsimp only
    split
    · exact ⟨rfl, rfl⟩
    split <;> try exact ⟨rfl, rfl⟩
    split <;> try exact ⟨rfl, rfl⟩
    split <;> try exact ⟨rfl, rfl⟩
    split <;> try exact ⟨rfl, rfl⟩
    split <;> try exact ⟨rfl, rfl⟩
    exact ih _ _

/-- C9 amended: after the matching loop, the remainder rests on the
book if and only if the remaining quantity is positive, the order price
passes the price-limit check against the current reference price, AND
the price is strictly positive (the validation inside add_limit).  The
claim as stated omits the last conjunct: with the price-limit rule
disabled (or no reference price), a market order price of zero passes
is_valid_price, yet the remainder is discarded by add_limit.  The
consequence the claim draws for market orders — a remainder at the
nominal price zero never rests, whether the rule is enabled or not — is
true and is the final conjunct. -/
theorem c9_amended_rest_condition (e : CDAEngine) (o : Order)
    (h1 : 0 < o.quantity)
    (h2 : o.order_type = "market" ∨ o.order_type = "limit")
    (h3 : o.direction = 1 ∨ o.direction = -1)
    (h4 : o.order_type = "limit" →
      0 < o.price ∧ e.pl_rule.is_valid_price o.price e.last_close_price = true) :
    ((e.process_order o).2.book.size =
        (e.match_loop o o.quantity (e.loop_fuel o)).2.2.book.size + 1 ↔
      (0 < (e.match_loop o o.quantity (e.loop_fuel o)).2.1 ∧
        e.pl_rule.is_valid_price o.price e.last_close_price = true ∧
        0 < o.price)) ∧
    (o.price = 0 →
      (e.process_order o).2.book.size =
        (e.match_loop o o.quantity (e.loop_fuel o)).2.2.book.size) := by
  have hq : ¬ o.quantity ≤ 0 := by omega
  have hg2 : ¬ ¬(o.order_type = "market" ∨ o.order_type = "limit") := not_not_intro h2
  have hg3 : ¬ ¬(o.direction = 1 ∨ o.direction = -1) := not_not_intro h3
  have hg4 : ¬ (o.order_type = "limit" ∧ o.price ≤ 0) := by
    rintro ⟨hl, hp⟩; exact absurd (h4 hl).1 (not_lt.mpr hp)
  have hg5 : ¬ (o.order_type = "limit" ∧
      (!(e.pl_rule.is_valid_price o.price e.last_close_price)) = true) := by
    rintro ⟨hl, hb⟩
    rw [(h4 hl).2] at hb
    simp at hb
  have hpl := match_loop_preserves_rule_fields o (e.loop_fuel o) e o.quantity
  rw [CDAEngine.process_order, if_neg hq, if_neg hg2, if_neg hg3, if_neg hg4, if_neg hg5]
  dsimp only
  rw [hpl.1, hpl.2]
  cases hvp : e.pl_rule.is_valid_price o.price e.last_close_price with
  | false =>
    rw [if_neg (by simp : ¬ (false = true))]
    constructor
    · constructor
      · intro habs; omega
      · rintro ⟨_, habs, _⟩; exact absurd habs (by simp)
    · intro _; rfl
  | true =>
    rw [if_pos rfl, add_limit_size]
    dsimp only
    constructor
    · by_cases hc : (e.match_loop o o.quantity (e.loop_fuel o)).2.1 ≤ 0 ∨ o.price ≤ 0
      · rw [if_pos hc]
        constructor
        · intro habs; omega
        · rintro ⟨ha, _, hb⟩
          rcases hc with hc | hc
          · omega
          · exact absurd hb (not_lt.mpr hc)
      · rw [if_neg hc]
        push_neg at hc
        exact ⟨fun _ => ⟨hc.1, rfl, hc.2⟩, fun _ => rfl⟩
    · intro hp0
      rw [if_pos (Or.inr (le_of_eq hp0))]

/-- Witness for the amended C9: a limit buy of 5 at 10 on the empty
book (price-limit rule disabled) leaves remainder 5 resting. -/
theorem c9_witness :
    (0 : Int) < (5 : Int) ∧
    (let e := CDAEngine.init plOff ttOff none
     let o : Order :=
       { agent_id := 9, direction := 1, order_type := "limit", price := 10, quantity := 5 }
     ((e.process_order o).2.book.size =
        (e.match_loop o o.quantity (e.loop_fuel o)).2.2.book.size + 1 ↔
      (0 < (e.match_loop o o.quantity (e.loop_fuel o)).2.1 ∧
        e.pl_rule.is_valid_price o.price e.last_close_price = true ∧
        0 < o.price)) ∧
    (o.price = 0 →
      (e.process_order o).2.book.size =
        (e.match_loop o o.quantity (e.loop_fuel o)).2.2.book.size)) :=
  ⟨by decide,
    c9_amended_rest_condition (CDAEngine.init plOff ttOff none)
      { agent_id := 9, direction := 1, order_type := "limit", price := 10, quantity := 5 }
      (by decide) (by decide) (by decide) (by decide)⟩

/-- C9 counterexample: with the price-limit rule disabled, a market buy
order (nominal price zero) of quantity 5 on the empty book ends its
matching loop with remaining quantity 5 > 0 and with is_valid_price
returning true for its price, yet the remainder does NOT rest (the book
stays empty: add_limit rejects the non-positive price).  Hence the
claimed equivalence "rests iff remaining positive and the price-limit
check passes" is false at this input. -/
theorem c9_counterexample :
    ¬ (((CDAEngine.init plOff ttOff none).process_order
          { agent_id := 7, direction := 1, order_type := "market", price := 0, quantity := 5 }).2.book.size =
        ((CDAEngine.init plOff ttOff none).match_loop
          { agent_id := 7, direction := 1, order_type := "market", price := 0, quantity := 5 }
          5 ((CDAEngine.init plOff ttOff none).loop_fuel
              { agent_id := 7, direction := 1, order_type := "market", price := 0, quantity := 5 })).2.2.book.size + 1 ↔
      (0 < ((CDAEngine.init plOff ttOff none).match_loop
          { agent_id := 7, direction := 1, order_type := "market", price := 0, quantity := 5 }
          5 ((CDAEngine.init plOff ttOff none).loop_fuel
              { agent_id := 7, direction := 1, order_type := "market", price := 0, quantity := 5 })).2.1 ∧
        (CDAEngine.init plOff ttOff none).pl_rule.is_valid_price 0
          (CDAEngine.init plOff ttOff none).last_close_price = true)) := by
  decide

/-! ## Claim C8 (price-time priority of the book) -/

/-- The public mutating operations of OrderBook exercised by C8. -/
inductive BookOp where
  | addLimit (o : Order)
  | reinsertEntry (e : BookEntry)
  | popBid
  | popAsk
deriving DecidableEq

/-- One operation applied to a book; a pop of an empty side propagates
its IndexError. -/
def OrderBook.applyOp (b : OrderBook) : BookOp → Except String OrderBook
  | BookOp.addLimit o => Except.ok (b.add_limit o)
  | BookOp.reinsertEntry e => Except.ok (b.reinsert e)
  | BookOp.popBid => (b.pop_best_bid).map (fun r => r.2)
  | BookOp.popAsk => (b.pop_best_ask).map (fun r => r.2)

/-- A sequence of operations applied left to right. -/
def OrderBook.runOps : OrderBook → List BookOp → Except String OrderBook
  | b, [] => Except.ok b
  | b, op :: ops =>
    match b.applyOp op with
    | Except.error msg => Except.error msg
    | Except.ok b1 => b1.runOps ops

/-- Structural invariant of every reachable book: a stored bid element
is keyed by the negated entry price (max-heap encoding) and its stored
timestamp, a stored ask element by the entry price and timestamp. -/
def OrderBook.keyInv (b : OrderBook) : Prop :=
  (∀ x ∈ b.bids, x.1 = -x.2.2.price ∧ x.2.1 = x.2.2.timestamp) ∧
  (∀ x ∈ b.asks, x.1 = x.2.2.price ∧ x.2.1 = x.2.2.timestamp)

/-- The empty book satisfies the key invariant. -/
theorem keyInv_empty : OrderBook.empty.keyInv := by
  constructor <;> intro x hx <;> simp [OrderBook.empty] at hx

/-- add_limit preserves the key invariant. -/
theorem keyInv_add_limit {b : OrderBook} (h : b.keyInv) (o : Order) :
    (b.add_limit o).keyInv := by
  unfold OrderBook.add_limit
  split
  · exact h
  split
  · exact h
  split
  · refine ⟨?_, h.2⟩
    intro x hx
    rcases List.mem_append.mp hx with hx | hx
    · exact h.1 x hx
    · simp only [List.mem_singleton] at hx
      subst hx
      exact ⟨rfl, rfl⟩
  · refine ⟨h.1, ?_⟩
    intro x hx
    rcases List.mem_append.mp hx with hx | hx
    · exact h.2 x hx
    · simp only [List.mem_singleton] at hx
      subst hx
      exact ⟨rfl, rfl⟩

/-- reinsert preserves the key invariant. -/
theorem keyInv_reinsert {b : OrderBook} (h : b.keyInv) (e : BookEntry) :
    (b.reinsert e).keyInv := by
  unfold OrderBook.reinsert
  split
  · exact h
  split
  · refine ⟨?_, h.2⟩
    intro x hx
    rcases List.mem_append.mp hx with hx | hx
    · exact h.1 x hx
    · simp only [List.mem_singleton] at hx
      subst hx
      exact ⟨rfl, rfl⟩
  · refine ⟨h.1, ?_⟩
    intro x hx
    rcases List.mem_append.mp hx with hx | hx
    · exact h.2 x hx
    · simp only [List.mem_singleton] at hx
      subst hx
      exact ⟨rfl, rfl⟩

/-- Both pops preserve the key invariant. -/
theorem keyInv_pop {b : OrderBook} (h : b.keyInv) :
    (∀ en b2, b.pop_best_bid = Except.ok (en, b2) → b2.keyInv) ∧
    (∀ en b2, b.pop_best_ask = Except.ok (en, b2) → b2.keyInv) := by
  constructor
  · intro en b2 hpop
    unfold OrderBook.pop_best_bid at hpop
    cases hp : popMin b.bids with
    | none => rw [hp] at hpop; cases hpop
    | some p =>
      obtain ⟨x, rest⟩ := p
      rw [hp] at hpop
      simp only [Except.ok.injEq, Prod.mk.injEq] at hpop
      rw [← hpop.2]
      exact ⟨fun y hy => h.1 y (popMin_rest_mem hp y hy), h.2⟩
  · intro en b2 hpop
    unfold OrderBook.pop_best_ask at hpop
    cases hp : popMin b.asks with
    | none => rw [hp] at hpop; cases hpop
    | some p =>
      obtain ⟨x, rest⟩ := p
      rw [hp] at hpop
      simp only [Except.ok.injEq, Prod.mk.injEq] at hpop
      rw [← hpop.2]
      exact ⟨h.1, fun y hy => h.2 y (popMin_rest_mem hp y hy)⟩

/-- Any successful operation preserves the key invariant. -/
theorem keyInv_applyOp {b b1 : OrderBook} {op : BookOp} (h : b.keyInv)
    (hop : b.applyOp op = Except.ok b1) : b1.keyInv := by
  cases op with
  | addLimit o =>
    simp only [OrderBook.applyOp, Except.ok.injEq] at hop
    exact hop ▸ keyInv_add_limit h o
  | reinsertEntry e =>
    simp only [OrderBook.applyOp, Except.ok.injEq] at hop
    exact hop ▸ keyInv_reinsert h e
  | popBid =>
    simp only [OrderBook.applyOp] at hop
    cases hpop : b.pop_best_bid with
    | error msg => rw [hpop] at hop; cases hop
    | ok r =>
      rw [hpop] at hop
      simp only [Except.map, Except.ok.injEq] at hop
      exact hop ▸ (keyInv_pop h).1 r.1 r.2 (by rw [hpop])
  | popAsk =>
    simp only [OrderBook.applyOp] at hop
    cases hpop : b.pop_best_ask with
    | error msg => rw [hpop] at hop; cases hop
    | ok r =>
      rw [hpop] at hop
      simp only [Except.map, Except.ok.injEq] at hop
      exact hop ▸ (keyInv_pop h).2 r.1 r.2 (by rw [hpop])

/-- A successful run of operations preserves the key invariant. -/
theorem keyInv_runOps : ∀ (ops : List BookOp) (b b1 : OrderBook),
    b.keyInv → b.runOps ops = Except.ok b1 → b1.keyInv := by
  intro ops
  induction ops with
  | nil =>
    intro b b1 h hr
    simp only [OrderBook.runOps, Except.ok.injEq] at hr
    exact hr ▸ h
  | cons op rest ih =>
    intro b b1 h hr
    rw [OrderBook.runOps] at hr
    cases hop : b.applyOp op with
    | error msg => rw [hop] at hr; cases hr
    | ok bmid =>
      rw [hop] at hr
      exact ih bmid b1 (keyInv_applyOp h hop) hr

/-- The extracted ask element: its key is the entry price, least among
all resting ask prices, with the least timestamp among entries at that
price. -/
theorem popMin_price_time_asks {l : List HeapElem} {x0 : HeapElem}
    {rest : List HeapElem}
    (hinv : ∀ x ∈ l, x.1 = x.2.2.price ∧ x.2.1 = x.2.2.timestamp)
    (hp : popMin l = some (x0, rest)) :
    x0.1 = x0.2.2.price ∧
    (∀ x ∈ l, x0.2.2.price ≤ x.2.2.price) ∧
    (∀ x ∈ l, x.2.2.price = x0.2.2.price → x0.2.2.timestamp ≤ x.2.2.timestamp) := by
  have hx0 := hinv x0 (popMin_mem hp)
  refine ⟨hx0.1, ?_, ?_⟩
  · intro x hx
    have hk := (keyLe_iff x0 x).mp (popMin_le hp x hx)
    have hx1 := (hinv x hx).1
    rcases hk with hk | ⟨hk, _⟩
    · rw [← hx0.1, ← hx1]; exact le_of_lt hk
    · rw [← hx0.1, ← hx1]; exact le_of_eq hk
  · intro x hx heq
    have hk := (keyLe_iff x0 x).mp (popMin_le hp x hx)
    have hx1 := hinv x hx
    rcases hk with hk | ⟨_, hk⟩
    · rw [hx0.1, hx1.1, heq] at hk
      exact absurd hk (lt_irrefl _)
    · rw [hx0.2, hx1.2] at hk
      exact hk

/-- The extracted bid element: its key is the negated entry price,
greatest among all resting bid prices, with the least timestamp among
entries at that price. -/
theorem popMin_price_time_bids {l : List HeapElem} {x0 : HeapElem}
    {rest : List HeapElem}
    (hinv : ∀ x ∈ l, x.1 = -x.2.2.price ∧ x.2.1 = x.2.2.timestamp)
    (hp : popMin l = some (x0, rest)) :
    x0.1 = -x0.2.2.price ∧
    (∀ x ∈ l, x.2.2.price ≤ x0.2.2.price) ∧
    (∀ x ∈ l, x.2.2.price = x0.2.2.price → x0.2.2.timestamp ≤ x.2.2.timestamp) := by
  have hx0 := hinv x0 (popMin_mem hp)
  refine ⟨hx0.1, ?_, ?_⟩
  · intro x hx
    have hk := (keyLe_iff x0 x).mp (popMin_le hp x hx)
    have hx1 := (hinv x hx).1
    rcases hk with hk | ⟨hk, _⟩
    · rw [hx0.1, hx1] at hk
      exact le_of_lt (neg_lt_neg_iff.mp hk)
    · rw [hx0.1, hx1] at hk
      exact le_of_eq (neg_injective hk).symm
  · intro x hx heq
    have hk := (keyLe_iff x0 x).mp (popMin_le hp x hx)
    have hx1 := hinv x hx
    rcases hk with hk | ⟨_, hk⟩
    · rw [hx0.1, hx1.1, heq] at hk
      exact absurd hk (lt_irrefl _)
    · rw [hx0.2, hx1.2] at hk
      exact hk

/-- C8: after any successful sequence of add_limit / reinsert / pop
operations from the empty book: best_ask is none exactly on an empty
ask side and otherwise equals the minimum resting ask price;
peek_best_ask returns an entry at that price whose arrival sequence
number is least among the resting asks at that price, and pop_best_ask
removes exactly the entry peek returns; symmetrically for bids with the
maximum price. -/
theorem c8_best_price_time_priority (ops : List BookOp) (b : OrderBook)
    (hr : OrderBook.empty.runOps ops = Except.ok b) :
    (b.best_ask = none ↔ b.asks = []) ∧
    (b.best_bid = none ↔ b.bids = []) ∧
    (∀ m, b.best_ask = some m →
      (∃ x ∈ b.asks, x.2.2.price = m) ∧ (∀ x ∈ b.asks, m ≤ x.2.2.price)) ∧
    (∀ m, b.best_bid = some m →
      (∃ x ∈ b.bids, x.2.2.price = m) ∧ (∀ x ∈ b.bids, x.2.2.price ≤ m)) ∧
    (∀ en, b.peek_best_ask = some en →
      b.best_ask = some en.price ∧
      ∀ x ∈ b.asks, x.2.2.price = en.price → en.timestamp ≤ x.2.2.timestamp) ∧
    (∀ en, b.peek_best_bid = some en →
      b.best_bid = some en.price ∧
      ∀ x ∈ b.bids, x.2.2.price = en.price → en.timestamp ≤ x.2.2.timestamp) ∧
    (∀ en b2, b.pop_best_ask = Except.ok (en, b2) → b.peek_best_ask = some en) ∧
    (∀ en b2, b.pop_best_bid = Except.ok (en, b2) → b.peek_best_bid = some en) := by
  have hinv := keyInv_runOps ops OrderBook.empty b keyInv_empty hr
  refine ⟨?_, ?_, ?_, ?_, ?_, ?_, ?_, ?_⟩
  · unfold OrderBook.best_ask heapPeek
    rw [Option.map_eq_none', Option.map_eq_none', popMin_eq_none_iff]
  · unfold OrderBook.best_bid heapPeek
    rw [Option.map_eq_none', Option.map_eq_none', popMin_eq_none_iff]
  · intro m hm
    unfold OrderBook.best_ask heapPeek at hm
    cases hp : popMin b.asks with
    | none => rw [hp] at hm; simp at hm
    | some p =>
      obtain ⟨x0, rest⟩ := p
      rw [hp] at hm
      simp only [Option.map_some', Option.some.injEq] at hm
      have hs := popMin_price_time_asks hinv.2 hp
      constructor
      · exact ⟨x0, popMin_mem hp, by rw [← hs.1]; exact hm⟩
      · intro x hx
        rw [← hm, hs.1]
        exact hs.2.1 x hx
  · intro m hm
    unfold OrderBook.best_bid heapPeek at hm
    cases hp : popMin b.bids with
    | none => rw [hp] at hm; simp at hm
    | some p =>
      obtain ⟨x0, rest⟩ := p
      rw [hp] at hm
      simp only [Option.map_some', Option.some.injEq] at hm
      have hs := popMin_price_time_bids hinv.1 hp
      constructor
      · refine ⟨x0, popMin_mem hp, ?_⟩
        rw [← hm, hs.1, neg_neg]
      · intro x hx
        rw [← hm, hs.1, neg_neg]
        exact hs.2.1 x hx
  · intro en hen
    unfold OrderBook.peek_best_ask heapPeek at hen
    cases hp : popMin b.asks with
    | none => rw [hp] at hen; simp at hen
    | some p =>
      obtain ⟨x0, rest⟩ := p
      rw [hp] at hen
      simp only [Option.map_some', Option.some.injEq] at hen
      have hs := popMin_price_time_asks hinv.2 hp
      constructor
      · unfold OrderBook.best_ask heapPeek
        rw [hp]
        simp only [Option.map_some', Option.some.injEq]
        rw [← hen]
        exact hs.1
      · intro x hx heq
        rw [← hen]
        exact hs.2.2 x hx (by rw [hen]; exact heq)
  · intro en hen
    unfold OrderBook.peek_best_bid heapPeek at hen
    cases hp : popMin b.bids with
    | none => rw [hp] at hen; simp at hen
    | some p =>
      obtain ⟨x0, rest⟩ := p
      rw [hp] at hen
      simp only [Option.map_some', Option.some.injEq] at hen
      have hs := popMin_price_time_bids hinv.1 hp
      constructor
      · unfold OrderBook.best_bid heapPeek
        rw [hp]
        simp only [Option.map_some', Option.some.injEq]
        rw [← hen, hs.1, neg_neg]
      · intro x hx heq
        rw [← hen]
        exact hs.2.2 x hx (by rw [hen]; exact heq)
  · intro en b2 hpop
    unfold OrderBook.pop_best_ask at hpop
    cases hp : popMin b.asks with
    | none => rw [hp] at hpop; cases hpop
    | some p =>
      obtain ⟨x0, rest⟩ := p
      rw [hp] at hpop
      simp only [Except.ok.injEq, Prod.mk.injEq] at hpop
      unfold OrderBook.peek_best_ask heapPeek
      rw [hp]
      simp only [Option.map_some', Option.some.injEq]
      exact hpop.1
  · intro en b2 hpop
    unfold OrderBook.pop_best_bid at hpop
    cases hp : popMin b.bids with
    | none => rw [hp] at hpop; cases hpop
    | some p =>
      obtain ⟨x0, rest⟩ := p
      rw [hp] at hpop
      simp only [Except.ok.injEq, Prod.mk.injEq] at hpop
      unfold OrderBook.peek_best_bid heapPeek
      rw [hp]
      simp only [Option.map_some', Option.some.injEq]
      exact hpop.1

/-- A concrete operation sequence for the C8 witness: two bids, two
asks at the same price, then a pop of the best bid. -/
def c8Ops : List BookOp :=
  [BookOp.addLimit { agent_id := 1, direction := 1, order_type := "limit", price := 10, quantity := 5 },
   BookOp.addLimit { agent_id := 2, direction := 1, order_type := "limit", price := 11, quantity := 2 },
   BookOp.addLimit { agent_id := 3, direction := -1, order_type := "limit", price := 12, quantity := 3 },
   BookOp.addLimit { agent_id := 4, direction := -1, order_type := "limit", price := 12, quantity := 4 },
   BookOp.popBid]

/-- The book reached by c8Ops: the 11-bid was popped, one bid at 10
remains, two asks rest at 12 with arrival numbers 3 and 4. -/
def c8Book : OrderBook :=
  { bids := [(-10, 1,
      { price := 10, timestamp := 1
        order := { agent_id := 1, direction := 1, order_type := "limit", price := 10, quantity := 5 }
        remaining := 5 })]
    asks := [(12, 3,
      { price := 12, timestamp := 3
        order := { agent_id := 3, direction := -1, order_type := "limit", price := 12, quantity := 3 }
        remaining := 3 }),
     (12, 4,
      { price := 12, timestamp := 4
        order := { agent_id := 4, direction := -1, order_type := "limit", price := 12, quantity := 4 }
        remaining := 4 })]
    counter := 4 }

/-- Witness for C8: the run of c8Ops succeeds and yields c8Book, for
which the price-time-priority conclusions hold. -/
theorem c8_witness :
    OrderBook.empty.runOps c8Ops = Except.ok c8Book ∧
    ((c8Book.best_ask = none ↔ c8Book.asks = []) ∧
    (c8Book.best_bid = none ↔ c8Book.bids = []) ∧
    (∀ m, c8Book.best_ask = some m →
      (∃ x ∈ c8Book.asks, x.2.2.price = m) ∧ (∀ x ∈ c8Book.asks, m ≤ x.2.2.price)) ∧
    (∀ m, c8Book.best_bid = some m →
      (∃ x ∈ c8Book.bids, x.2.2.price = m) ∧ (∀ x ∈ c8Book.bids, x.2.2.price ≤ m)) ∧
    (∀ en, c8Book.peek_best_ask = some en →
      c8Book.best_ask = some en.price ∧
      ∀ x ∈ c8Book.asks, x.2.2.price = en.price → en.timestamp ≤ x.2.2.timestamp) ∧
    (∀ en, c8Book.peek_best_bid = some en →
      c8Book.best_bid = some en.price ∧
      ∀ x ∈ c8Book.bids, x.2.2.price = en.price → en.timestamp ≤ x.2.2.timestamp) ∧
    (∀ en b2, c8Book.pop_best_ask = Except.ok (en, b2) → c8Book.peek_best_ask = some en) ∧
    (∀ en b2, c8Book.pop_best_bid = Except.ok (en, b2) → c8Book.peek_best_bid = some en)) :=
  ⟨by decide, c8_best_price_time_priority c8Ops c8Book (by decide)⟩

end ThesisModel
